import Mathlib

/-!
# librealsense tutorial 2 (`examples/cpp-tutorial-2-streams.cpp`)

A shallow embedding of `main`: the program is a function from a `World` (what the
camera SDK, the window system and the user supply) to the list of external calls
it makes, in order, together with how it ends.  SDK calls may throw `rs::error`;
GLFW / OpenGL calls never do.
-/

namespace Tutorial2

/-! ## Data model -/

/-- The payload of `rs::error`: `get_failed_function()`, `get_failed_args()`, `what()`. -/
structure rs_error where
  failed_function : String
  failed_args : String
  what : String
  deriving DecidableEq, Repr

/-- Modelled from the spec: the header that declares `enum rs_stream` is absent.  The spec
describes a closed enumeration of stream identities whose ordinals index a fixed-size
table.  These are the names of its enumerators: the three the program mentions and any
further ones the header declares. -/
inductive rs_stream_name where
  | RS_STREAM_DEPTH
  | RS_STREAM_INFRARED
  | RS_STREAM_COLOR
  | other (tag : Nat)
  deriving DecidableEq, Repr

/-- The values of the enumerators the program uses.  A stream type at run time is the
ordinal (a `Nat`); `RS_STREAM_COUNT` is the size of the `frontbuffer` array. -/
structure StreamEnum where
  RS_STREAM_DEPTH : Nat
  RS_STREAM_INFRARED : Nat
  RS_STREAM_COLOR : Nat
  RS_STREAM_COUNT : Nat
  deriving DecidableEq, Repr

/-- Modelled from the spec: the header that declares `enum rs_stream` is absent.  An
enumeration declared as the list `decl` of enumerators followed by `RS_STREAM_COUNT`, none
with an explicit value: each enumerator's ordinal is its position and `RS_STREAM_COUNT` is
the number of enumerators before it. -/
def StreamEnum.of_decl (decl : List rs_stream_name) : StreamEnum where
  RS_STREAM_DEPTH := decl.indexOf rs_stream_name.RS_STREAM_DEPTH
  RS_STREAM_INFRARED := decl.indexOf rs_stream_name.RS_STREAM_INFRARED
  RS_STREAM_COLOR := decl.indexOf rs_stream_name.RS_STREAM_COLOR
  RS_STREAM_COUNT := decl.length

/-- What the program relies on in lines 29, 36 and 61-77: the three `case` labels are
pairwise distinct (the language requires it), and each is below `RS_STREAM_COUNT`, as in
any enumeration that ends with `RS_STREAM_COUNT` (`of_decl_WF`). -/
def StreamEnum.WF (E : StreamEnum) : Prop :=
  E.RS_STREAM_DEPTH ≠ E.RS_STREAM_INFRARED ∧ E.RS_STREAM_DEPTH ≠ E.RS_STREAM_COLOR ∧
  E.RS_STREAM_INFRARED ≠ E.RS_STREAM_COLOR ∧
  E.RS_STREAM_DEPTH < E.RS_STREAM_COUNT ∧ E.RS_STREAM_INFRARED < E.RS_STREAM_COUNT ∧
  E.RS_STREAM_COLOR < E.RS_STREAM_COUNT

instance (E : StreamEnum) : Decidable E.WF := by
  unfold StreamEnum.WF; infer_instance

/-- The pixel formats named on lines 31-33. -/
inductive rs_format where
  | RS_FORMAT_Z16
  | RS_FORMAT_Y8
  | RS_FORMAT_RGB8
  deriving DecidableEq, Repr

/-- The three `rs_camera_info` keys read on lines 25-27. -/
inductive rs_camera_info where
  | RS_CAMERA_INFO_DEVICE_NAME
  | RS_CAMERA_INFO_DEVICE_SERIAL_NUMBER
  | RS_CAMERA_INFO_CAMERA_FIRMWARE_VERSION
  deriving DecidableEq, Repr

/-- One element of the brace lists given to `open`: stream, width, height, fps, format. -/
structure StreamConfig where
  stream : Nat
  width : Nat
  height : Nat
  fps : Nat
  format : rs_format
  deriving DecidableEq, Repr

/-- The two sub-devices streams are opened on: `dev.depth()` and `dev.color()`. -/
inductive Subdevice where
  | depth
  | color
  deriving DecidableEq, Repr

/-- A live `rs::frame`: the stream it belongs to (`get_stream_type()`), its timestamp and
the address of its pixel buffer (`get_data()`). -/
structure Frame where
  stream_type : Nat
  timestamp : Nat
  data : Nat
  deriving DecidableEq, Repr

/-- The array `rs::frame frontbuffer[RS_STREAM_COUNT]`: a slot is `none` for an empty
`rs::frame` (its `operator bool` is false) and `some f` for a live one. -/
abbrev Table := List (Option Frame)

/-- OpenGL pixel formats used by the draws. -/
inductive GLFormat where
  | GL_RED
  | GL_RGB
  | GL_LUMINANCE
  deriving DecidableEq, Repr

/-- OpenGL component types used by the draws. -/
inductive GLType where
  | GL_UNSIGNED_SHORT
  | GL_UNSIGNED_BYTE
  deriving DecidableEq, Repr

/-- The second argument of `glPixelTransferf(GL_RED_SCALE, _)`, kept symbolic:
`0xFFFF * depth_scale / 2.0f` for the depth scale the device reported, or `1.0f`. -/
inductive RedScale where
  | depth_range (depth_scale : Nat)
  | one
  deriving DecidableEq, Repr

/-- The call sites of the SDK in `main`.  Calls inside the loop carry the number `k` of the
iteration that makes them. -/
inductive SdkCall where
  | create_context
  | query_devices
  | get_camera_info (info : rs_camera_info)
  | open_streams (sub : Subdevice) (configs : List StreamConfig)
  | create_frame_queue (capacity : Nat)
  | start (sub : Subdevice)
  | wait_for_frame (k : Nat)
  | get_stream_type (k : Nat)
  | get_depth_scale (k : Nat)
  | get_data (k : Nat) (stream : Nat)
  | flush
  deriving DecidableEq, Repr

/-- Everything `main` does that is visible outside it, one constructor per call. -/
inductive Event where
  | sdk (c : SdkCall)
  | printf_connected (n : Nat)
  | printf_device_name (s : String)
  | printf_serial_number (s : String)
  | printf_firmware_version (s : String)
  | glfwInit
  | glfwCreateWindow (width height : Nat) (title : String)
  | glfwMakeContextCurrent
  | glfwWindowShouldClose (result : Bool)
  | glfwPollEvents
  | glClear
  | glPixelZoom (x y : Int)
  | glRasterPos2f (x y : Int)
  | glPixelTransferf_RED_SCALE (v : RedScale)
  | glDrawPixels (width height : Nat) (format : GLFormat) (type : GLType) (data : Nat)
  | glfwSwapBuffers
  | printf_error_call (failed_function failed_args : String)
  | printf_error_what (what : String)
  deriving DecidableEq, Repr

/-- The two values `main` returns. -/
inductive ExitStatus where
  | EXIT_SUCCESS
  | EXIT_FAILURE
  deriving DecidableEq, Repr

/-- Ways the body of `main` stops without returning: an `rs::error` is thrown; an array is
indexed outside its bounds (undefined behaviour in C++); `wait_for_frame` blocks because no
further frame is ever delivered; the model's loop budget is used up. -/
inductive Abort where
  | thrown (e : rs_error)
  | out_of_range
  | blocked
  | out_of_fuel
  deriving DecidableEq, Repr

/-- What the environment supplies to one run. `fault c = some e` makes SDK call `c` throw
`e`; `queue` lists the frames the frame queue delivers, oldest first; `shouldClose k` is
the result of the `k`-th call of `glfwWindowShouldClose`. -/
structure World where
  fault : SdkCall → Option rs_error
  connected_devices : List Nat
  camera_info : Nat → rs_camera_info → String
  depth_scale : Nat → Nat
  queue : List Frame
  shouldClose : Nat → Bool

/-! ## Computations: a trace of events and a result -/

/-- A computation that has run: the events it produced and its result. -/
def Prog (α : Type) : Type := List Event × Except Abort α

/-- Sequencing: if the first part stopped, so does the whole; otherwise the second part
runs after it. -/
def Prog.bind {α β : Type} (p : Prog α) (f : α → Prog β) : Prog β :=
  match p.2 with
  | .error a => (p.1, .error a)
  | .ok x => (p.1 ++ (f x).1, (f x).2)

instance : Monad Prog where
  pure x := ([], .ok x)
  bind := Prog.bind

/-- A call that cannot throw. -/
def emit (e : Event) : Prog Unit := ([e], .ok ())

/-- Stop without returning. -/
def stop {α : Type} (a : Abort) : Prog α := ([], .error a)

/-- An SDK call `c` that returns `v` unless the world makes it throw. -/
def sdk {α : Type} (W : World) (c : SdkCall) (v : α) : Prog α :=
  match W.fault c with
  | some e => ([Event.sdk c], .error (.thrown e))
  | none => ([Event.sdk c], .ok v)

/-! ## The program -/

/-- Line 29: `supported_streams`. -/
def supported_streams (E : StreamEnum) : List Nat :=
  [E.RS_STREAM_DEPTH, E.RS_STREAM_INFRARED, E.RS_STREAM_COLOR]

/-- Lines 31-32: the configurations given to `dev.depth().open`. -/
def depth_configs (E : StreamEnum) : List StreamConfig :=
  [⟨E.RS_STREAM_DEPTH, 640, 480, 30, .RS_FORMAT_Z16⟩,
   ⟨E.RS_STREAM_INFRARED, 640, 480, 30, .RS_FORMAT_Y8⟩]

/-- Line 33: the configuration given to `dev.color().open`. -/
def color_configs (E : StreamEnum) : List StreamConfig :=
  [⟨E.RS_STREAM_COLOR, 640, 480, 30, .RS_FORMAT_RGB8⟩]

/-- Line 36: the array starts with every slot an empty frame. -/
def frontbuffer_init (E : StreamEnum) : Table :=
  List.replicate E.RS_STREAM_COUNT none

/-- Modelled from the spec: `rs::frame_queue::wait_for_frame` is SDK code absent from the
sources.  It blocks until a frame is available, then removes and returns the oldest one; a
queue that never receives another frame blocks for ever. -/
def wait_for_frame (W : World) (k : Nat) (queue : List Frame) : Prog (Frame × List Frame) :=
  match W.fault (.wait_for_frame k) with
  | some e => ([Event.sdk (.wait_for_frame k)], .error (.thrown e))
  | none =>
    match queue with
    | [] => ([Event.sdk (.wait_for_frame k)], .error .blocked)
    | f :: rest => ([Event.sdk (.wait_for_frame k)], .ok (f, rest))

/-- Line 53, `frontbuffer[stream_type] = std::move(frame)`: the write, with the index
checked against the array's size. -/
def store (frontbuffer : Table) (stream_type : Nat) (frame : Frame) : Option Table :=
  if stream_type < frontbuffer.length then some (frontbuffer.set stream_type (some frame))
  else none

/-- Lines 60-78: the body of the `for` loop for one `stream`. -/
def render_stream (E : StreamEnum) (W : World) (dev k : Nat) (frontbuffer : Table)
    (stream : Nat) : Prog Unit :=
  match frontbuffer[stream]? with
  | none => stop .out_of_range
  | some none => pure ()
  | some (some fr) =>
    if stream = E.RS_STREAM_DEPTH then do
      emit (.glRasterPos2f (-1) 1)
      let depth_scale ← sdk W (.get_depth_scale k) (W.depth_scale dev)
      emit (.glPixelTransferf_RED_SCALE (.depth_range depth_scale))
      let data ← sdk W (.get_data k stream) fr.data
      emit (.glDrawPixels 640 480 .GL_RED .GL_UNSIGNED_SHORT data)
      emit (.glPixelTransferf_RED_SCALE .one)
    else if stream = E.RS_STREAM_COLOR then do
      emit (.glRasterPos2f 0 1)
      let data ← sdk W (.get_data k stream) fr.data
      emit (.glDrawPixels 640 480 .GL_RGB .GL_UNSIGNED_BYTE data)
    else if stream = E.RS_STREAM_INFRARED then do
      emit (.glRasterPos2f (-1) 0)
      let data ← sdk W (.get_data k stream) fr.data
      emit (.glDrawPixels 640 480 .GL_LUMINANCE .GL_UNSIGNED_BYTE data)
    else pure ()

/-- Lines 58-79: the `for` loop over `supported_streams`. -/
def render_streams (E : StreamEnum) (W : World) (dev k : Nat) (frontbuffer : Table) :
    List Nat → Prog Unit
  | [] => pure ()
  | stream :: rest => do
    render_stream E W dev k frontbuffer stream
    render_streams E W dev k frontbuffer rest

/-- Lines 49-81: the body of the `while` loop, iteration `k`, on the frames still to be
delivered and the current `frontbuffer`. -/
def loop_body (E : StreamEnum) (W : World) (dev k : Nat) (st : List Frame × Table) :
    Prog (List Frame × Table) := do
  emit .glfwPollEvents
  let got ← wait_for_frame W k st.1
  let stream_type ← sdk W (.get_stream_type k) got.1.stream_type
  match store st.2 stream_type got.1 with
  | none => stop .out_of_range
  | some frontbuffer => do
    emit .glClear
    emit (.glPixelZoom 1 (-1))
    render_streams E W dev k frontbuffer (supported_streams E)
    emit .glfwSwapBuffers
    pure (got.2, frontbuffer)

/-- Lines 46-82: the `while` loop from its `k`-th test of the condition on, with a budget of
`fuel` tests. -/
def display_loop (E : StreamEnum) (W : World) (dev : Nat) :
    Nat → Nat → List Frame × Table → Prog (List Frame × Table)
  | 0, _, _ => stop .out_of_fuel
  | fuel + 1, k, st => do
    emit (.glfwWindowShouldClose (W.shouldClose k))
    if W.shouldClose k then pure st
    else do
      let st1 ← loop_body E W dev k st
      display_loop E W dev fuel (k + 1) st1

/-- Lines 17-86: the `try` block. -/
def main_body (E : StreamEnum) (W : World) (fuel : Nat) : Prog ExitStatus := do
  sdk W .create_context ()
  let connected_devices ← sdk W .query_devices W.connected_devices
  emit (.printf_connected connected_devices.length)
  match connected_devices with
  | [] => pure .EXIT_FAILURE
  | dev :: _ => do
    let name ← sdk W (.get_camera_info .RS_CAMERA_INFO_DEVICE_NAME)
      (W.camera_info dev .RS_CAMERA_INFO_DEVICE_NAME)
    emit (.printf_device_name name)
    let serial ← sdk W (.get_camera_info .RS_CAMERA_INFO_DEVICE_SERIAL_NUMBER)
      (W.camera_info dev .RS_CAMERA_INFO_DEVICE_SERIAL_NUMBER)
    emit (.printf_serial_number serial)
    let firmware ← sdk W (.get_camera_info .RS_CAMERA_INFO_CAMERA_FIRMWARE_VERSION)
      (W.camera_info dev .RS_CAMERA_INFO_CAMERA_FIRMWARE_VERSION)
    emit (.printf_firmware_version firmware)
    sdk W (.open_streams .depth (depth_configs E)) ()
    sdk W (.open_streams .color (color_configs E)) ()
    sdk W (.create_frame_queue 10) ()
    sdk W (.start .depth) ()
    sdk W (.start .color) ()
    emit .glfwInit
    emit (.glfwCreateWindow 1280 960 "librealsense tutorial #2")
    emit .glfwMakeContextCurrent
    let _ ← display_loop E W dev fuel 0 (W.queue, frontbuffer_init E)
    sdk W .flush ()
    pure .EXIT_SUCCESS

/-- How a run ends: `main` returns a status, or it never returns one. -/
inductive Outcome where
  | exit (status : ExitStatus)
  | stuck (a : Abort)
  deriving DecidableEq, Repr

/-- Lines 15-94: `main` with its function `try` block; the handler of `rs::error` prints
the report and returns `EXIT_FAILURE`. -/
def main (E : StreamEnum) (W : World) (fuel : Nat) : List Event × Outcome :=
  match (main_body E W fuel).2 with
  | .ok status => ((main_body E W fuel).1, .exit status)
  | .error (.thrown e) =>
    ((main_body E W fuel).1 ++
      [.printf_error_call e.failed_function e.failed_args, .printf_error_what e.what],
     .exit .EXIT_FAILURE)
  | .error a => ((main_body E W fuel).1, .stuck a)

/-! ## Vocabulary of the properties -/

/-- The SDK calls of the render step of iteration `k` do not throw. -/
def RenderOk (W : World) (k : Nat) : Prop :=
  W.fault (.get_depth_scale k) = none ∧ ∀ s, W.fault (.get_data k s) = none

/-- No SDK call of iteration `k` throws. -/
def IterationOk (W : World) (k : Nat) : Prop :=
  W.fault (.wait_for_frame k) = none ∧ W.fault (.get_stream_type k) = none ∧ RenderOk W k

/-- No SDK call throws at all. -/
def NoFault (W : World) : Prop := ∀ c, W.fault c = none

/-- Slot `stream` of the table holds a live frame. -/
def populated (frontbuffer : Table) (stream : Nat) : Bool :=
  match frontbuffer[stream]? with
  | some (some _) => true
  | _ => false

/-- The populated slots among `supported_streams`, in the order of `supported_streams`. -/
def populated_streams (E : StreamEnum) (frontbuffer : Table) : List Nat :=
  (supported_streams E).filter (populated frontbuffer)

/-- The stream a draw call shows, read off its pixel format: `GL_RED` is used by the depth
case only, `GL_LUMINANCE` by the infrared case only, `GL_RGB` by the colour case only. -/
def stream_drawn (E : StreamEnum) : Event → Option Nat
  | .glDrawPixels _ _ .GL_RED _ _ => some E.RS_STREAM_DEPTH
  | .glDrawPixels _ _ .GL_LUMINANCE _ _ => some E.RS_STREAM_INFRARED
  | .glDrawPixels _ _ .GL_RGB _ _ => some E.RS_STREAM_COLOR
  | _ => none

/-- The events of lines 63-76 for one populated `stream` when nothing throws. -/
def draw_events (E : StreamEnum) (W : World) (dev k : Nat) (stream : Nat) (fr : Frame) :
    List Event :=
  if stream = E.RS_STREAM_DEPTH then
    [.glRasterPos2f (-1) 1, .sdk (.get_depth_scale k),
     .glPixelTransferf_RED_SCALE (.depth_range (W.depth_scale dev)),
     .sdk (.get_data k stream),
     .glDrawPixels 640 480 .GL_RED .GL_UNSIGNED_SHORT fr.data,
     .glPixelTransferf_RED_SCALE .one]
  else if stream = E.RS_STREAM_COLOR then
    [.glRasterPos2f 0 1, .sdk (.get_data k stream),
     .glDrawPixels 640 480 .GL_RGB .GL_UNSIGNED_BYTE fr.data]
  else if stream = E.RS_STREAM_INFRARED then
    [.glRasterPos2f (-1) 0, .sdk (.get_data k stream),
     .glDrawPixels 640 480 .GL_LUMINANCE .GL_UNSIGNED_BYTE fr.data]
  else []

/-- The events of the whole render step when nothing throws: the draws of the populated
slots among `streams`, in the order of `streams`. -/
def render_events (E : StreamEnum) (W : World) (dev k : Nat) (frontbuffer : Table) :
    List Nat → List Event
  | [] => []
  | stream :: rest =>
    (match frontbuffer[stream]? with
     | some (some fr) => draw_events E W dev k stream fr
     | _ => []) ++ render_events E W dev k frontbuffer rest

/-- The events of one complete iteration `k` that leaves the table as `frontbuffer`. -/
def iteration_events (E : StreamEnum) (W : World) (dev k : Nat) (frontbuffer : Table) :
    List Event :=
  [.glfwPollEvents, .sdk (.wait_for_frame k), .sdk (.get_stream_type k), .glClear,
   .glPixelZoom 1 (-1)] ++ render_events E W dev k frontbuffer (supported_streams E) ++
  [.glfwSwapBuffers]

/-- The table after the frames `fs` have been written to it one after the other, each into
the slot of its stream type. -/
def install (frontbuffer : Table) (fs : List Frame) : Table :=
  fs.foldl (fun t f => t.set f.stream_type (some f)) frontbuffer

/-- The events of the iterations `k`, `k + 1`, ... that consume the frames `fs`, each
preceded by its test of the loop condition. -/
def loop_events (E : StreamEnum) (W : World) (dev : Nat) :
    Nat → Table → List Frame → List Event
  | _, _, [] => []
  | k, frontbuffer, f :: fs =>
    .glfwWindowShouldClose false ::
      (iteration_events E W dev k (frontbuffer.set f.stream_type (some f)) ++
       loop_events E W dev (k + 1) (frontbuffer.set f.stream_type (some f)) fs)

/-- The first `n` iterations of the loop body taken on their own, starting with iteration
`k`: what the loop has done when it is about to test its condition for the `n`-th time. -/
def iterations (E : StreamEnum) (W : World) (dev : Nat) :
    Nat → Nat → List Frame × Table → Prog (List Frame × Table)
  | 0, _, st => pure st
  | n + 1, k, st => do
    let st1 ← loop_body E W dev k st
    iterations E W dev n (k + 1) st1

/-- The events of lines 18-44 when a device is connected and nothing throws. -/
def setup_events (E : StreamEnum) (W : World) (dev : Nat) : List Event :=
  [.sdk .create_context, .sdk .query_devices, .printf_connected W.connected_devices.length,
   .sdk (.get_camera_info .RS_CAMERA_INFO_DEVICE_NAME),
   .printf_device_name (W.camera_info dev .RS_CAMERA_INFO_DEVICE_NAME),
   .sdk (.get_camera_info .RS_CAMERA_INFO_DEVICE_SERIAL_NUMBER),
   .printf_serial_number (W.camera_info dev .RS_CAMERA_INFO_DEVICE_SERIAL_NUMBER),
   .sdk (.get_camera_info .RS_CAMERA_INFO_CAMERA_FIRMWARE_VERSION),
   .printf_firmware_version (W.camera_info dev .RS_CAMERA_INFO_CAMERA_FIRMWARE_VERSION),
   .sdk (.open_streams .depth (depth_configs E)),
   .sdk (.open_streams .color (color_configs E)),
   .sdk (.create_frame_queue 10), .sdk (.start .depth), .sdk (.start .color),
   .glfwInit, .glfwCreateWindow 1280 960 "librealsense tutorial #2",
   .glfwMakeContextCurrent]

/-- Every SDK call in the trace of `p` that the world makes throw is the reason `p`
stopped. -/
def Sound {α : Type} (W : World) (p : Prog α) : Prop :=
  ∀ c e, Event.sdk c ∈ p.1 → W.fault c = some e → p.2 = .error (.thrown e)

/-- Modelled from the spec: the SDK's table of pixel formats is absent, and the spec lists
the pixel format only as a configuration field.  Bits per pixel of the three formats the
program opens, as their names say: one 16-bit channel (Z16), one 8-bit channel (Y8), three
8-bit channels (RGB8). -/
def rs_format_bits : rs_format → Nat
  | .RS_FORMAT_Z16 => 16
  | .RS_FORMAT_Y8 => 8
  | .RS_FORMAT_RGB8 => 24

/-- The size in bytes of one frame of a stream opened with configuration `c`. -/
def frame_bytes (c : StreamConfig) : Nat :=
  c.width * c.height * rs_format_bits c.format / 8

/-- OpenGL: the number of components per pixel of a format. -/
def gl_components : GLFormat → Nat
  | .GL_RED => 1
  | .GL_RGB => 3
  | .GL_LUMINANCE => 1

/-- OpenGL: the size in bytes of one component. -/
def gl_type_bytes : GLType → Nat
  | .GL_UNSIGNED_SHORT => 2
  | .GL_UNSIGNED_BYTE => 1

/-- Bytes per pixel of a draw's pixel layout. -/
def gl_pixel_bytes (format : GLFormat) (type : GLType) : Nat :=
  gl_components format * gl_type_bytes type

/-- The number of bytes `glDrawPixels(width, height, format, type, data)` reads from
`data`. -/
def gl_draw_bytes (width height : Nat) (format : GLFormat) (type : GLType) : Nat :=
  width * height * gl_pixel_bytes format type

/-- OpenGL reads rows at the unpack alignment, 4 by default and never changed by the
program: the bytes from the start of one row to the start of the next. -/
def gl_row_stride (width : Nat) (format : GLFormat) (type : GLType) : Nat :=
  (width * gl_pixel_bytes format type + 3) / 4 * 4

/-- The extent of the memory a draw reads, rows padded to the unpack alignment. -/
def gl_draw_extent (width height : Nat) (format : GLFormat) (type : GLType) : Nat :=
  height * gl_row_stride width format type

/-- The events of the first iterations taken on their own (`iterations`), consuming the
frames `fs`, when nothing throws. -/
def iterations_events (E : StreamEnum) (W : World) (dev : Nat) :
    Nat → Table → List Frame → List Event
  | _, _, [] => []
  | k, frontbuffer, f :: fs =>
    iteration_events E W dev k (frontbuffer.set f.stream_type (some f)) ++
      iterations_events E W dev (k + 1) (frontbuffer.set f.stream_type (some f)) fs

/-- An event is a call of `wait_for_frame`. -/
def is_wait : Event → Bool
  | .sdk (.wait_for_frame _) => true
  | _ => false

/-- An event is one of the calls made inside the `for` loop of the render step. -/
def render_kind : Event → Bool
  | .glRasterPos2f _ _ => true
  | .sdk (.get_depth_scale _) => true
  | .glPixelTransferf_RED_SCALE _ => true
  | .sdk (.get_data _ _) => true
  | .glDrawPixels _ _ _ _ _ => true
  | _ => false

/-- An event is a call of `glDrawPixels`. -/
def is_draw : Event → Bool
  | .glDrawPixels _ _ _ _ _ => true
  | _ => false

/-- An event is one of the calls made between the start of the loop and its exit: a test
of the loop condition that finds the window open, or a call of the loop body. -/
def loop_kind : Event → Bool
  | .glfwWindowShouldClose false => true
  | .glfwPollEvents => true
  | .sdk (.wait_for_frame _) => true
  | .sdk (.get_stream_type _) => true
  | .glClear => true
  | .glPixelZoom _ _ => true
  | .glfwSwapBuffers => true
  | ev => render_kind ev

/-! ## Concrete runs -/

/-- A declaration of `rs_stream` with five enumerators. -/
def sample_decl : List rs_stream_name :=
  [.RS_STREAM_DEPTH, .RS_STREAM_COLOR, .RS_STREAM_INFRARED, .other 0, .other 1]

/-- The enumeration `sample_decl` declares: depth 0, colour 1, infrared 2, five in all. -/
def sample_enum : StreamEnum := StreamEnum.of_decl sample_decl

/-- A first depth frame. -/
def depth_a : Frame := ⟨0, 10, 1000⟩

/-- A colour frame. -/
def color_a : Frame := ⟨1, 11, 2000⟩

/-- A second depth frame. -/
def depth_b : Frame := ⟨0, 12, 3000⟩

/-- An infrared frame. -/
def infrared_a : Frame := ⟨2, 13, 4000⟩

/-- One device, no SDK failure; a depth, a colour and a second depth frame arrive and the
window is closed after the third iteration. -/
def sample_world : World where
  fault := fun _ => none
  connected_devices := [7]
  camera_info := fun _ _ => "r200"
  depth_scale := fun _ => 1
  queue := [depth_a, color_a, depth_b]
  shouldClose := fun k => decide (3 ≤ k)

/-- As `sample_world`, but `get_data` on the colour frame throws in the second iteration. -/
def faulty_world : World where
  fault := fun c => if c = .get_data 1 1 then some ⟨"rs_get_frame_data", "frame:0x2", "gone"⟩
    else none
  connected_devices := [7]
  camera_info := fun _ _ => "r200"
  depth_scale := fun _ => 1
  queue := [depth_a, color_a, depth_b]
  shouldClose := fun k => decide (3 ≤ k)

/-- A world with no camera attached. -/
def empty_world : World where
  fault := fun _ => none
  connected_devices := []
  camera_info := fun _ _ => ""
  depth_scale := fun _ => 1
  queue := []
  shouldClose := fun _ => false

/-! ## Evaluation lemmas -/

theorem bind_def {α β : Type} (p : Prog α) (f : α → Prog β) : (p >>= f) = Prog.bind p f := rfl

theorem pure_def {α : Type} (x : α) : (pure x : Prog α) = ([], .ok x) := rfl

theorem bind_ok {α β : Type} (t : List Event) (x : α) (f : α → Prog β) :
    Prog.bind (t, .ok x) f = (t ++ (f x).1, (f x).2) := rfl

theorem bind_error {α β : Type} (t : List Event) (a : Abort) (f : α → Prog β) :
    Prog.bind (t, .error a) f = (t, .error a) := rfl

theorem emit_bind {β : Type} (e : Event) (f : Unit → Prog β) :
    Prog.bind (emit e) f = (e :: (f ()).1, (f ()).2) := rfl

theorem sdk_ok {α : Type} (W : World) (c : SdkCall) (v : α) (h : W.fault c = none) :
    sdk W c v = ([Event.sdk c], .ok v) := by
  simp [sdk, h]

theorem sdk_thrown {α : Type} (W : World) (c : SdkCall) (v : α) (e : rs_error)
    (h : W.fault c = some e) : sdk W c v = ([Event.sdk c], .error (.thrown e)) := by
  simp [sdk, h]

theorem render_stream_populated (E : StreamEnum) (W : World) (dev k : Nat) (tbl : Table)
    (stream : Nat) (fr : Frame) (hW : RenderOk W k) (h : tbl[stream]? = some (some fr)) :
    render_stream E W dev k tbl stream = (draw_events E W dev k stream fr, .ok ()) := by
  obtain ⟨h1, h2⟩ := hW
  unfold render_stream draw_events
  rw [h]
  simp only [bind_def, sdk_ok _ _ _ h1, sdk_ok _ _ _ (h2 _), emit_bind, bind_ok, pure_def]
  split_ifs <;> rfl

theorem render_stream_empty (E : StreamEnum) (W : World) (dev k : Nat) (tbl : Table)
    (stream : Nat) (h : tbl[stream]? = some none) :
    render_stream E W dev k tbl stream = ([], .ok ()) := by
  unfold render_stream
  rw [h]; rfl

theorem render_streams_ok (E : StreamEnum) (W : World) (dev k : Nat) (tbl : Table)
    (hW : RenderOk W k) (streams : List Nat) (hs : ∀ s ∈ streams, s < tbl.length) :
    render_streams E W dev k tbl streams = (render_events E W dev k tbl streams, .ok ()) := by
  induction streams with
  | nil => rfl
  | cons s rest ih =>
    have hlt : s < tbl.length := hs s (List.mem_cons_self _ _)
    have ih1 := ih (fun t ht => hs t (List.mem_cons_of_mem _ ht))
    unfold render_streams render_events
    rw [bind_def, ih1]
    rcases hslot : tbl[s] with _ | fr
    · have h : tbl[s]? = some none := by rw [List.getElem?_eq_getElem hlt, hslot]
      rw [render_stream_empty E W dev k tbl s h, h]; rfl
    · have h : tbl[s]? = some (some fr) := by rw [List.getElem?_eq_getElem hlt, hslot]
      rw [render_stream_populated E W dev k tbl s fr hW h, h]; simp [bind_ok]

theorem wait_ok (W : World) (k : Nat) (f : Frame) (q : List Frame)
    (h : W.fault (.wait_for_frame k) = none) :
    wait_for_frame W k (f :: q) = ([Event.sdk (.wait_for_frame k)], .ok (f, q)) := by
  simp [wait_for_frame, h]

theorem store_ok (tbl : Table) (i : Nat) (f : Frame) (h : i < tbl.length) :
    store tbl i f = some (tbl.set i (some f)) := by
  simp [store, h]

theorem supported_lt (E : StreamEnum) (hE : E.WF) (tbl : Table)
    (hlen : tbl.length = E.RS_STREAM_COUNT) : ∀ s ∈ supported_streams E, s < tbl.length := by
  obtain ⟨-, -, -, h1, h2, h3⟩ := hE
  intro s hs
  simp only [supported_streams, List.mem_cons, List.mem_singleton, List.not_mem_nil,
    or_false] at hs
  rcases hs with rfl | rfl | rfl <;> omega

theorem loop_body_ok (E : StreamEnum) (W : World) (dev k : Nat) (f : Frame) (q : List Frame)
    (tbl : Table) (hE : E.WF) (hW : IterationOk W k) (hlen : tbl.length = E.RS_STREAM_COUNT)
    (hf : f.stream_type < E.RS_STREAM_COUNT) :
    loop_body E W dev k (f :: q, tbl) =
      (iteration_events E W dev k (tbl.set f.stream_type (some f)),
       .ok (q, tbl.set f.stream_type (some f))) := by
  obtain ⟨h1, h2, h3⟩ := hW
  have hr := render_streams_ok E W dev k (tbl.set f.stream_type (some f)) h3
    (supported_streams E) (supported_lt E hE _ (by simpa using hlen))
  unfold loop_body iteration_events
  simp only [bind_def, emit_bind, wait_ok W k f q h1, bind_ok, sdk_ok _ _ _ h2,
    store_ok tbl f.stream_type f (by omega), hr, pure_def]
  simp [emit]

theorem install_length (fs : List Frame) (tbl : Table) :
    (install tbl fs).length = tbl.length := by
  induction fs generalizing tbl with
  | nil => rfl
  | cons f fs ih => simp [install, List.foldl_cons] at ih ⊢; rw [ih]; simp

theorem install_cons (tbl : Table) (f : Frame) (fs : List Frame) :
    install tbl (f :: fs) = install (tbl.set f.stream_type (some f)) fs := rfl

theorem install_append (tbl : Table) (fs gs : List Frame) :
    install tbl (fs ++ gs) = install (install tbl fs) gs := by
  simp [install, List.foldl_append]

theorem display_loop_ok (E : StreamEnum) (W : World) (dev : Nat) (hE : E.WF) (q : List Frame) :
    ∀ (fs : List Frame) (fuel k : Nat) (tbl : Table),
      (∀ i, i < fs.length → W.shouldClose (k + i) = false ∧ IterationOk W (k + i)) →
      W.shouldClose (k + fs.length) = true → fs.length < fuel →
      tbl.length = E.RS_STREAM_COUNT → (∀ f ∈ fs, f.stream_type < E.RS_STREAM_COUNT) →
      display_loop E W dev fuel k (fs ++ q, tbl) =
        (loop_events E W dev k tbl fs ++ [.glfwWindowShouldClose true],
         .ok (q, install tbl fs)) := by
  intro fs
  induction fs with
  | nil =>
    intro fuel k tbl _ hc hfuel _ _
    obtain ⟨fuel, rfl⟩ : ∃ m, fuel = m + 1 := ⟨fuel - 1, by simp at hfuel; omega⟩
    simp only [List.length_nil, Nat.add_zero] at hc
    simp [display_loop, hc, bind_def, emit_bind, pure_def, loop_events, install]
  | cons f fs ih =>
    intro fuel k tbl hW hc hfuel hlen hv
    obtain ⟨fuel, rfl⟩ : ∃ m, fuel = m + 1 := ⟨fuel - 1, by simp at hfuel; omega⟩
    have h0 := hW 0 (by simp)
    simp only [Nat.add_zero] at h0
    have hf := hv f (List.mem_cons_self _ _)
    have h := ih fuel (k + 1) (tbl.set f.stream_type (some f))
      (fun i hi => by
        have := hW (i + 1) (by simpa using hi)
        rwa [show k + (i + 1) = k + 1 + i by omega] at this)
      (by rw [← hc]; congr 1; simp; omega) (by simp at hfuel; omega)
      (by simpa using hlen) (fun g hg => hv g (List.mem_cons_of_mem _ hg))
    simp only [display_loop, h0.1, List.cons_append, bind_def, emit_bind,
      loop_body_ok E W dev k f (fs ++ q) tbl hE h0.2 hlen hf, bind_ok, h, install_cons,
      loop_events]
    simp


theorem install_slot (fs : List Frame) :
    ∀ (tbl : Table) (s : Nat), s < tbl.length →
      (install tbl fs)[s]? =
        match (fs.filter (fun f => f.stream_type = s)).getLast? with
        | some f => some (some f)
        | none => tbl[s]? := by
  induction fs with
  | nil => intro tbl s _; simp [install]
  | cons f fs ih =>
    intro tbl s hs
    rw [install_cons, ih (tbl.set f.stream_type (some f)) s (by simpa using hs)]
    by_cases hfs : f.stream_type = s
    · have hc : (f :: fs).filter (fun g => decide (g.stream_type = s)) =
          f :: fs.filter (fun g => decide (g.stream_type = s)) :=
        List.filter_cons_of_pos (by simpa using hfs)
      rw [hc, List.getLast?_cons]
      generalize (fs.filter (fun g => decide (g.stream_type = s))).getLast? = o
      cases o with
      | none => subst hfs; exact List.getElem?_set_self hs
      | some g => rfl
    · have hc : (f :: fs).filter (fun g => decide (g.stream_type = s)) =
          fs.filter (fun g => decide (g.stream_type = s)) :=
        List.filter_cons_of_neg (by simpa using hfs)
      rw [hc]
      generalize (fs.filter (fun g => decide (g.stream_type = s))).getLast? = o
      cases o with
      | none => exact List.getElem?_set_ne hfs
      | some g => rfl

theorem init_slot (E : StreamEnum) (s : Nat) (hs : s < E.RS_STREAM_COUNT) :
    (frontbuffer_init E)[s]? = some none := by
  simp [frontbuffer_init, List.getElem?_replicate, hs]

theorem init_length (E : StreamEnum) : (frontbuffer_init E).length = E.RS_STREAM_COUNT := by
  simp [frontbuffer_init]

theorem install_init_slot (E : StreamEnum) (fs : List Frame) (s : Nat)
    (hs : s < E.RS_STREAM_COUNT) :
    (install (frontbuffer_init E) fs)[s]? =
      some (fs.filter (fun f => f.stream_type = s)).getLast? := by
  rw [install_slot fs _ s (by rw [init_length]; exact hs), init_slot E s hs]
  cases (fs.filter (fun f => decide (f.stream_type = s))).getLast? <;> rfl

theorem iterations_run (E : StreamEnum) (W : World) (dev : Nat) (hE : E.WF) (q : List Frame) :
    ∀ (fs : List Frame) (k : Nat) (tbl : Table),
      (∀ i, i < fs.length → IterationOk W (k + i)) → tbl.length = E.RS_STREAM_COUNT →
      (∀ f ∈ fs, f.stream_type < E.RS_STREAM_COUNT) →
      iterations E W dev fs.length k (fs ++ q, tbl) =
        (iterations_events E W dev k tbl fs, .ok (q, install tbl fs)) := by
  intro fs
  induction fs with
  | nil => intro k tbl _ _ _; rfl
  | cons f fs ih =>
    intro k tbl hW hlen hv
    have h0 : IterationOk W k := by simpa using hW 0 (by simp)
    have hf := hv f (List.mem_cons_self _ _)
    have htr := ih (k + 1) (tbl.set f.stream_type (some f))
      (fun i hi => by
        have := hW (i + 1) (by simpa using hi)
        rwa [show k + (i + 1) = k + 1 + i by omega] at this)
      (by simpa using hlen) (fun g hg => hv g (List.mem_cons_of_mem _ hg))
    simp only [List.length_cons, iterations, List.cons_append, bind_def,
      loop_body_ok E W dev k f (fs ++ q) tbl hE h0 hlen hf, bind_ok, htr, install_cons,
      iterations_events]

theorem iterations_take (E : StreamEnum) (W : World) (dev : Nat) (hE : E.WF)
    (q : List Frame) (n : Nat) (tbl : Table) (hn : n ≤ q.length)
    (hW : ∀ i, i < n → IterationOk W i) (hlen : tbl.length = E.RS_STREAM_COUNT)
    (hv : ∀ f ∈ q.take n, f.stream_type < E.RS_STREAM_COUNT) :
    iterations E W dev n 0 (q, tbl) =
      (iterations_events E W dev 0 tbl (q.take n), .ok (q.drop n, install tbl (q.take n))) := by
  have hl : (q.take n).length = n := by simp [hn]
  have h := iterations_run E W dev hE (q.drop n) (q.take n) 0 tbl
    (fun i hi => by rw [hl] at hi; simpa using hW i hi) hlen hv
  rwa [hl, List.take_append_drop] at h

theorem draw_events_drawn (E : StreamEnum) (W : World) (dev k s : Nat) (fr : Frame)
    (hE : E.WF) (hs : s ∈ supported_streams E) :
    (draw_events E W dev k s fr).filterMap (stream_drawn E) = [s] := by
  obtain ⟨h1, h2, h3, -⟩ := hE
  simp only [supported_streams, List.mem_cons, List.mem_singleton, List.not_mem_nil,
    or_false] at hs
  rcases hs with rfl | rfl | rfl
  · simp [draw_events, stream_drawn]
  · simp [draw_events, stream_drawn, Ne.symm h1, h3]
  · simp [draw_events, stream_drawn, Ne.symm h2]

theorem render_events_drawn (E : StreamEnum) (W : World) (dev k : Nat) (tbl : Table)
    (hE : E.WF) (streams : List Nat) (hs : ∀ s ∈ streams, s ∈ supported_streams E) :
    (render_events E W dev k tbl streams).filterMap (stream_drawn E) =
      streams.filter (populated tbl) := by
  induction streams with
  | nil => rfl
  | cons s rest ih =>
    have ih1 := ih (fun t ht => hs t (List.mem_cons_of_mem _ ht))
    have hd := fun fr => draw_events_drawn E W dev k s fr hE (hs s (List.mem_cons_self _ _))
    rcases h : tbl[s]? with _ | _ | fr <;>
      simp [render_events, List.filterMap_append, ih1, List.filter_cons, populated, h, hd]

theorem iteration_events_drawn (E : StreamEnum) (W : World) (dev k : Nat) (tbl : Table)
    (hE : E.WF) :
    (iteration_events E W dev k tbl).filterMap (stream_drawn E) = populated_streams E tbl := by
  simp only [iteration_events, List.filterMap_append,
    render_events_drawn E W dev k tbl hE (supported_streams E) (fun _ h => h)]
  simp [stream_drawn, populated_streams]

theorem sdk_cases {α : Type} (W : World) (c : SdkCall) (v : α) :
    sdk W c v = ([Event.sdk c], .ok v) ∨ ∃ e, sdk W c v = ([Event.sdk c], .error (.thrown e)) := by
  cases h : W.fault c with
  | none => exact Or.inl (sdk_ok W c v h)
  | some e => exact Or.inr ⟨e, sdk_thrown W c v e h⟩

theorem render_stream_in_bounds (E : StreamEnum) (W : World) (dev k : Nat) (tbl : Table)
    (s : Nat) (hs : s < tbl.length) :
    (render_stream E W dev k tbl s).2 = .ok () ∨
      ∃ e, (render_stream E W dev k tbl s).2 = .error (.thrown e) := by
  unfold render_stream
  rw [List.getElem?_eq_getElem hs]
  cases tbl[s] with
  | none => exact Or.inl rfl
  | some fr =>
    simp only [bind_def, emit_bind]
    rcases sdk_cases W (.get_depth_scale k) (W.depth_scale dev) with h1 | ⟨e1, h1⟩ <;>
    rcases sdk_cases W (.get_data k s) fr.data with h2 | ⟨e2, h2⟩ <;>
    split_ifs <;> simp [h1, h2, bind_ok, bind_error, emit_bind, pure_def, emit]

theorem render_streams_in_bounds (E : StreamEnum) (W : World) (dev k : Nat) (tbl : Table)
    (streams : List Nat) (hs : ∀ s ∈ streams, s < tbl.length) :
    (render_streams E W dev k tbl streams).2 = .ok () ∨
      ∃ e, (render_streams E W dev k tbl streams).2 = .error (.thrown e) := by
  induction streams with
  | nil => exact Or.inl rfl
  | cons s rest ih =>
    have ih1 := ih (fun t ht => hs t (List.mem_cons_of_mem _ ht))
    unfold render_streams
    rw [bind_def]
    rcases render_stream_in_bounds E W dev k tbl s (hs s (List.mem_cons_self _ _)) with h | ⟨e, h⟩
    · simp only [Prog.bind, h]
      exact ih1
    · simp only [Prog.bind, h]
      exact Or.inr ⟨e, rfl⟩

/-- Whatever the SDK does, an iteration on a table of `RS_STREAM_COUNT` slots and frames with
stream types below `RS_STREAM_COUNT` does not index out of range, and it hands such a
table and such frames on to the next iteration. -/
theorem loop_body_in_bounds (E : StreamEnum) (W : World) (dev k : Nat) (q : List Frame)
    (tbl : Table) (hE : E.WF) (hlen : tbl.length = E.RS_STREAM_COUNT)
    (hv : ∀ f ∈ q, f.stream_type < E.RS_STREAM_COUNT) :
    (loop_body E W dev k (q, tbl)).2 ≠ .error .out_of_range ∧
      ∀ st1, (loop_body E W dev k (q, tbl)).2 = .ok st1 →
        st1.2.length = E.RS_STREAM_COUNT ∧ ∀ f ∈ st1.1, f.stream_type < E.RS_STREAM_COUNT := by
  unfold loop_body
  simp only [bind_def, emit_bind]
  cases hw : W.fault (.wait_for_frame k) with
  | some e => simp [wait_for_frame, hw, bind_error]
  | none =>
    cases q with
    | nil => simp [wait_for_frame, hw, bind_error]
    | cons f q =>
      have hf := hv f (List.mem_cons_self _ _)
      rw [wait_ok W k f q hw, bind_ok]
      rcases sdk_cases W (.get_stream_type k) f.stream_type with h | ⟨e, h⟩
      · rw [h, bind_ok, store_ok tbl f.stream_type f (by omega)]
        simp only [bind_def, emit_bind]
        have hb := render_streams_in_bounds E W dev k (tbl.set f.stream_type (some f))
          (supported_streams E) (supported_lt E hE _ (by simpa using hlen))
        rcases hb with hb | ⟨e, hb⟩
        · simp only [Prog.bind, hb]
          refine ⟨by simp [emit, pure_def], ?_⟩
          intro st1 hst
          simp only [emit, pure_def, Except.ok.injEq] at hst
          subst hst
          exact ⟨by simpa using hlen, fun g hg => hv g (List.mem_cons_of_mem _ hg)⟩
        · simp [Prog.bind, hb]
      · simp [h, bind_error]

theorem display_loop_in_bounds (E : StreamEnum) (W : World) (dev : Nat) (hE : E.WF) :
    ∀ (fuel k : Nat) (q : List Frame) (tbl : Table), tbl.length = E.RS_STREAM_COUNT →
      (∀ f ∈ q, f.stream_type < E.RS_STREAM_COUNT) →
      (display_loop E W dev fuel k (q, tbl)).2 ≠ .error .out_of_range := by
  intro fuel
  induction fuel with
  | zero => intro k q tbl _ _; simp [display_loop, stop]
  | succ fuel ih =>
    intro k q tbl hlen hv
    unfold display_loop
    simp only [bind_def, emit_bind]
    cases hc : W.shouldClose k with
    | true => simp [pure_def]
    | false =>
      simp only [Bool.false_eq_true, if_false]
      obtain ⟨h1, h2⟩ := loop_body_in_bounds E W dev k q tbl hE hlen hv
      cases hr : (loop_body E W dev k (q, tbl)).2 with
      | error a =>
        simp only [Prog.bind, hr]
        rw [hr] at h1
        exact h1
      | ok st1 =>
        simp only [Prog.bind, hr]
        obtain ⟨h3, h4⟩ := h2 st1 hr
        exact ih (k + 1) st1.1 st1.2 h3 h4
theorem bind_result_ne {α β : Type} (p : Prog α) (f : α → Prog β) (a : Abort)
    (hp : p.2 ≠ .error a) (hf : ∀ x, (f x).2 ≠ .error a) : (Prog.bind p f).2 ≠ .error a := by
  unfold Prog.bind
  cases h : p.2 with
  | error b => rw [h] at hp; simpa using hp
  | ok x => exact hf x

theorem sdk_result_ne {α : Type} (W : World) (c : SdkCall) (v : α) :
    (sdk W c v).2 ≠ .error .out_of_range := by
  rcases sdk_cases W c v with h | ⟨e, h⟩ <;> simp [h]

theorem emit_result_ne (ev : Event) (a : Abort) : (emit ev).2 ≠ .error a := by
  simp [emit]

theorem main_body_in_bounds (E : StreamEnum) (W : World) (fuel : Nat) (hE : E.WF)
    (hv : ∀ f ∈ W.queue, f.stream_type < E.RS_STREAM_COUNT) :
    (main_body E W fuel).2 ≠ .error .out_of_range := by
  unfold main_body
  simp only [bind_def]
  refine bind_result_ne _ _ _ (sdk_result_ne _ _ _) (fun _ => ?_)
  refine bind_result_ne _ _ _ (sdk_result_ne _ _ _) (fun devs => ?_)
  refine bind_result_ne _ _ _ (emit_result_ne _ _) (fun _ => ?_)
  cases devs with
  | nil => simp [pure_def]
  | cons dev rest =>
    simp only []
    refine bind_result_ne _ _ _ (sdk_result_ne _ _ _) (fun _ => ?_)
    refine bind_result_ne _ _ _ (emit_result_ne _ _) (fun _ => ?_)
    refine bind_result_ne _ _ _ (sdk_result_ne _ _ _) (fun _ => ?_)
    refine bind_result_ne _ _ _ (emit_result_ne _ _) (fun _ => ?_)
    refine bind_result_ne _ _ _ (sdk_result_ne _ _ _) (fun _ => ?_)
    refine bind_result_ne _ _ _ (emit_result_ne _ _) (fun _ => ?_)
    refine bind_result_ne _ _ _ (sdk_result_ne _ _ _) (fun _ => ?_)
    refine bind_result_ne _ _ _ (sdk_result_ne _ _ _) (fun _ => ?_)
    refine bind_result_ne _ _ _ (sdk_result_ne _ _ _) (fun _ => ?_)
    refine bind_result_ne _ _ _ (sdk_result_ne _ _ _) (fun _ => ?_)
    refine bind_result_ne _ _ _ (sdk_result_ne _ _ _) (fun _ => ?_)
    refine bind_result_ne _ _ _ (emit_result_ne _ _) (fun _ => ?_)
    refine bind_result_ne _ _ _ (emit_result_ne _ _) (fun _ => ?_)
    refine bind_result_ne _ _ _ (emit_result_ne _ _) (fun _ => ?_)
    refine bind_result_ne _ _ _
      (display_loop_in_bounds E W dev hE fuel 0 W.queue (frontbuffer_init E) (init_length E) hv)
      (fun _ => ?_)
    refine bind_result_ne _ _ _ (sdk_result_ne _ _ _) (fun _ => ?_)
    simp [pure_def]

theorem Sound_bind {α β : Type} (W : World) (p : Prog α) (f : α → Prog β)
    (hp : Sound W p) (hf : ∀ x, Sound W (f x)) : Sound W (Prog.bind p f) := by
  intro c e hmem hfault
  unfold Prog.bind at hmem ⊢
  cases h : p.2 with
  | error a =>
    rw [h] at hmem
    have := hp c e hmem hfault
    rw [h] at this
    simpa using this
  | ok x =>
    rw [h] at hmem
    simp only [List.mem_append] at hmem
    rcases hmem with hm | hm
    · have := hp c e hm hfault
      rw [h] at this
      cases this
    · exact hf x c e hm hfault

theorem Sound_sdk {α : Type} (W : World) (c : SdkCall) (v : α) : Sound W (sdk W c v) := by
  intro d e hmem hfault
  have hd : d = c := by
    rcases sdk_cases W c v with h | ⟨e1, h⟩ <;>
      · rw [h] at hmem
        simpa using hmem
  subst hd
  rw [sdk_thrown W d v e hfault]

theorem Sound_emit (W : World) (ev : Event) (h : ∀ c, ev ≠ .sdk c) : Sound W (emit ev) := by
  intro c e hmem _
  simp only [emit, List.mem_singleton] at hmem
  exact absurd hmem.symm (h c)

theorem Sound_nil {α : Type} (W : World) (r : Except Abort α) : Sound W (([], r) : Prog α) := by
  intro c e hmem _
  simp at hmem

theorem Sound_wait (W : World) (k : Nat) (q : List Frame) : Sound W (wait_for_frame W k q) := by
  intro c e hmem hfault
  unfold wait_for_frame at hmem ⊢
  cases hw : W.fault (.wait_for_frame k) with
  | some e1 =>
    simp only [hw, List.mem_singleton, Event.sdk.injEq] at hmem
    subst hmem
    rw [hw] at hfault
    simp only [Option.some.injEq] at hfault
    simp [hfault]
  | none =>
    have hc : c = .wait_for_frame k := by
      cases q <;> simpa [hw] using hmem
    subst hc
    rw [hw] at hfault
    cases hfault
theorem Sound_render_stream (E : StreamEnum) (W : World) (dev k : Nat) (tbl : Table)
    (s : Nat) : Sound W (render_stream E W dev k tbl s) := by
  unfold render_stream
  rcases tbl[s]? with _ | _ | fr
  · exact Sound_nil W _
  · exact Sound_nil W _
  · simp only [bind_def]
    split_ifs
    · refine Sound_bind W _ _ (Sound_emit W _ (by simp)) (fun _ => ?_)
      refine Sound_bind W _ _ (Sound_sdk W _ _) (fun _ => ?_)
      refine Sound_bind W _ _ (Sound_emit W _ (by simp)) (fun _ => ?_)
      refine Sound_bind W _ _ (Sound_sdk W _ _) (fun _ => ?_)
      refine Sound_bind W _ _ (Sound_emit W _ (by simp)) (fun _ => ?_)
      exact Sound_emit W _ (by simp)
    · refine Sound_bind W _ _ (Sound_emit W _ (by simp)) (fun _ => ?_)
      refine Sound_bind W _ _ (Sound_sdk W _ _) (fun _ => ?_)
      exact Sound_emit W _ (by simp)
    · refine Sound_bind W _ _ (Sound_emit W _ (by simp)) (fun _ => ?_)
      refine Sound_bind W _ _ (Sound_sdk W _ _) (fun _ => ?_)
      exact Sound_emit W _ (by simp)
    · exact Sound_nil W _

theorem Sound_render_streams (E : StreamEnum) (W : World) (dev k : Nat) (tbl : Table)
    (streams : List Nat) : Sound W (render_streams E W dev k tbl streams) := by
  induction streams with
  | nil => exact Sound_nil W _
  | cons s rest ih =>
    unfold render_streams
    rw [bind_def]
    exact Sound_bind W _ _ (Sound_render_stream E W dev k tbl s) (fun _ => ih)

theorem Sound_loop_body (E : StreamEnum) (W : World) (dev k : Nat)
    (st : List Frame × Table) : Sound W (loop_body E W dev k st) := by
  unfold loop_body
  simp only [bind_def]
  refine Sound_bind W _ _ (Sound_emit W _ (by simp)) (fun _ => ?_)
  refine Sound_bind W _ _ (Sound_wait W _ _) (fun got => ?_)
  refine Sound_bind W _ _ (Sound_sdk W _ _) (fun stream_type => ?_)
  cases store st.2 stream_type got.1 with
  | none => exact Sound_nil W _
  | some tbl =>
    simp only []
    refine Sound_bind W _ _ (Sound_emit W _ (by simp)) (fun _ => ?_)
    refine Sound_bind W _ _ (Sound_emit W _ (by simp)) (fun _ => ?_)
    refine Sound_bind W _ _ (Sound_render_streams E W dev k tbl _) (fun _ => ?_)
    refine Sound_bind W _ _ (Sound_emit W _ (by simp)) (fun _ => ?_)
    exact Sound_nil W _

theorem Sound_display_loop (E : StreamEnum) (W : World) (dev : Nat) :
    ∀ (fuel k : Nat) (st : List Frame × Table), Sound W (display_loop E W dev fuel k st) := by
  intro fuel
  induction fuel with
  | zero => intro k st; exact Sound_nil W _
  | succ fuel ih =>
    intro k st
    unfold display_loop
    simp only [bind_def]
    refine Sound_bind W _ _ (Sound_emit W _ (by simp)) (fun _ => ?_)
    split_ifs
    · exact Sound_nil W _
    · exact Sound_bind W _ _ (Sound_loop_body E W dev k st) (fun st1 => ih (k + 1) st1)

theorem Sound_main_body (E : StreamEnum) (W : World) (fuel : Nat) :
    Sound W (main_body E W fuel) := by
  unfold main_body
  simp only [bind_def]
  refine Sound_bind W _ _ (Sound_sdk W _ _) (fun _ => ?_)
  refine Sound_bind W _ _ (Sound_sdk W _ _) (fun devs => ?_)
  refine Sound_bind W _ _ (Sound_emit W _ (by simp)) (fun _ => ?_)
  cases devs with
  | nil => exact Sound_nil W _
  | cons dev rest =>
    simp only []
    refine Sound_bind W _ _ (Sound_sdk W _ _) (fun _ => ?_)
    refine Sound_bind W _ _ (Sound_emit W _ (by simp)) (fun _ => ?_)
    refine Sound_bind W _ _ (Sound_sdk W _ _) (fun _ => ?_)
    refine Sound_bind W _ _ (Sound_emit W _ (by simp)) (fun _ => ?_)
    refine Sound_bind W _ _ (Sound_sdk W _ _) (fun _ => ?_)
    refine Sound_bind W _ _ (Sound_emit W _ (by simp)) (fun _ => ?_)
    refine Sound_bind W _ _ (Sound_sdk W _ _) (fun _ => ?_)
    refine Sound_bind W _ _ (Sound_sdk W _ _) (fun _ => ?_)
    refine Sound_bind W _ _ (Sound_sdk W _ _) (fun _ => ?_)
    refine Sound_bind W _ _ (Sound_sdk W _ _) (fun _ => ?_)
    refine Sound_bind W _ _ (Sound_sdk W _ _) (fun _ => ?_)
    refine Sound_bind W _ _ (Sound_emit W _ (by simp)) (fun _ => ?_)
    refine Sound_bind W _ _ (Sound_emit W _ (by simp)) (fun _ => ?_)
    refine Sound_bind W _ _ (Sound_emit W _ (by simp)) (fun _ => ?_)
    refine Sound_bind W _ _ (Sound_display_loop E W dev fuel 0 _) (fun _ => ?_)
    refine Sound_bind W _ _ (Sound_sdk W _ _) (fun _ => ?_)
    exact Sound_nil W _

theorem main_trace_sdk (E : StreamEnum) (W : World) (fuel : Nat) (c : SdkCall)
    (h : Event.sdk c ∈ (main E W fuel).1) : Event.sdk c ∈ (main_body E W fuel).1 := by
  unfold main at h
  split at h
  · exact h
  · simpa using h
  · exact h
theorem of_decl_WF (decl : List rs_stream_name) (hd : rs_stream_name.RS_STREAM_DEPTH ∈ decl)
    (hi : rs_stream_name.RS_STREAM_INFRARED ∈ decl)
    (hc : rs_stream_name.RS_STREAM_COLOR ∈ decl) : (StreamEnum.of_decl decl).WF := by
  have hinj : ∀ a b : rs_stream_name, a ∈ decl → b ∈ decl → a ≠ b →
      decl.indexOf a ≠ decl.indexOf b :=
    fun a b ha hb hab h => hab ((List.indexOf_inj ha hb).1 h)
  refine ⟨hinj _ _ hd hi (by simp), hinj _ _ hd hc (by simp), hinj _ _ hi hc (by simp),
    List.indexOf_lt_length.2 hd, List.indexOf_lt_length.2 hi, List.indexOf_lt_length.2 hc⟩

theorem loop_body_out_of_range (E : StreamEnum) (W : World) (dev k : Nat) (f : Frame)
    (q : List Frame) (tbl : Table) (hlen : tbl.length = E.RS_STREAM_COUNT)
    (h1 : W.fault (.wait_for_frame k) = none) (h2 : W.fault (.get_stream_type k) = none)
    (hf : E.RS_STREAM_COUNT ≤ f.stream_type) :
    (loop_body E W dev k (f :: q, tbl)).2 = .error .out_of_range := by
  unfold loop_body
  simp only [bind_def, emit_bind, wait_ok W k f q h1, bind_ok, sdk_ok _ _ _ h2]
  have : store tbl f.stream_type f = none := by
    simp only [store, ite_eq_right_iff]
    intro h; omega
  rw [this]
  rfl

theorem render_events_kind (E : StreamEnum) (W : World) (dev k : Nat) (tbl : Table)
    (streams : List Nat) : ∀ ev ∈ render_events E W dev k tbl streams, render_kind ev = true := by
  induction streams with
  | nil => intro ev h; simp [render_events] at h
  | cons s rest ih =>
    intro ev h
    simp only [render_events, List.mem_append] at h
    rcases h with h | h
    · rcases hs : tbl[s]? with _ | _ | fr
      · simp [hs] at h
      · simp [hs] at h
      · rw [hs] at h
        simp only [draw_events] at h
        split_ifs at h
        · simp only [List.mem_cons, List.mem_singleton, List.not_mem_nil, or_false] at h
          rcases h with rfl | rfl | rfl | rfl | rfl | rfl <;> rfl
        · simp only [List.mem_cons, List.mem_singleton, List.not_mem_nil, or_false] at h
          rcases h with rfl | rfl | rfl <;> rfl
        · simp only [List.mem_cons, List.mem_singleton, List.not_mem_nil, or_false] at h
          rcases h with rfl | rfl | rfl <;> rfl
        · simp at h
    · exact ih ev h

theorem render_kind_facts (ev : Event) (h : render_kind ev = true) :
    loop_kind ev = true ∧ is_wait ev = false := by
  cases ev with
  | sdk c => cases c <;> simp_all [render_kind, loop_kind, is_wait]
  | _ => simp_all [render_kind, loop_kind, is_wait]

theorem iteration_events_kind (E : StreamEnum) (W : World) (dev k : Nat) (tbl : Table) :
    ∀ ev ∈ iteration_events E W dev k tbl, loop_kind ev = true := by
  intro ev h
  simp only [iteration_events, List.mem_append, List.mem_cons, List.mem_singleton,
    List.not_mem_nil, or_false] at h
  rcases h with (h | h) | rfl
  · rcases h with rfl | rfl | rfl | rfl | rfl <;> rfl
  · exact (render_kind_facts ev (render_events_kind E W dev k tbl _ ev h)).1
  · rfl

theorem loop_events_kind (E : StreamEnum) (W : World) (dev : Nat) (fs : List Frame) :
    ∀ (k : Nat) (tbl : Table), ∀ ev ∈ loop_events E W dev k tbl fs, loop_kind ev = true := by
  induction fs with
  | nil => intro k tbl ev h; simp [loop_events] at h
  | cons f fs ih =>
    intro k tbl ev h
    simp only [loop_events, List.mem_cons, List.mem_append] at h
    rcases h with rfl | h | h
    · rfl
    · exact iteration_events_kind E W dev k _ ev h
    · exact ih _ _ ev h

theorem iteration_events_waits (E : StreamEnum) (W : World) (dev k : Nat) (tbl : Table) :
    (iteration_events E W dev k tbl).countP is_wait = 1 := by
  have h0 : (render_events E W dev k tbl (supported_streams E)).countP is_wait = 0 := by
    rw [List.countP_eq_zero]
    intro ev hev
    simp [(render_kind_facts ev (render_events_kind E W dev k tbl _ ev hev)).2]
  simp [iteration_events, List.countP_append, List.countP_cons, h0, is_wait]

theorem loop_events_waits (E : StreamEnum) (W : World) (dev : Nat) (fs : List Frame) :
    ∀ (k : Nat) (tbl : Table), (loop_events E W dev k tbl fs).countP is_wait = fs.length := by
  induction fs with
  | nil => intro k tbl; rfl
  | cons f fs ih =>
    intro k tbl
    simp [loop_events, List.countP_cons, List.countP_append, iteration_events_waits, ih,
      is_wait]
    omega

theorem iterations_events_waits (E : StreamEnum) (W : World) (dev : Nat) (fs : List Frame) :
    ∀ (k : Nat) (tbl : Table),
      (iterations_events E W dev k tbl fs).countP is_wait = fs.length := by
  induction fs with
  | nil => intro k tbl; rfl
  | cons f fs ih =>
    intro k tbl
    simp [iterations_events, List.countP_append, iteration_events_waits, ih]
    omega

theorem NoFault.iteration {W : World} (h : NoFault W) (k : Nat) : IterationOk W k :=
  ⟨h _, h _, h _, fun _ => h _⟩

theorem display_loop_take (E : StreamEnum) (W : World) (dev : Nat) (hE : E.WF)
    (q : List Frame) (n fuel : Nat) (tbl : Table) (hn : n ≤ q.length)
    (hW : ∀ i, i < n → W.shouldClose i = false ∧ IterationOk W i)
    (hclose : W.shouldClose n = true) (hfuel : n < fuel)
    (hlen : tbl.length = E.RS_STREAM_COUNT)
    (hv : ∀ f ∈ q.take n, f.stream_type < E.RS_STREAM_COUNT) :
    display_loop E W dev fuel 0 (q, tbl) =
      (loop_events E W dev 0 tbl (q.take n) ++ [.glfwWindowShouldClose true],
       .ok (q.drop n, install tbl (q.take n))) := by
  have hl : (q.take n).length = n := by simp [hn]
  have h := display_loop_ok E W dev hE (q.drop n) (q.take n) fuel 0 tbl
    (fun i hi => by rw [hl] at hi; simpa using hW i hi) (by simpa [hl] using hclose)
    (by rw [hl]; exact hfuel) hlen hv
  rwa [List.take_append_drop] at h

theorem main_body_ok (E : StreamEnum) (W : World) (fuel dev : Nat) (others : List Nat) (n : Nat)
    (hE : E.WF) (hW : NoFault W) (hdev : W.connected_devices = dev :: others)
    (hn : n ≤ W.queue.length)
    (hv : ∀ f ∈ W.queue.take n, f.stream_type < E.RS_STREAM_COUNT)
    (hrun : ∀ i, i < n → W.shouldClose i = false) (hclose : W.shouldClose n = true)
    (hfuel : n < fuel) :
    main_body E W fuel =
      (setup_events E W dev ++ loop_events E W dev 0 (frontbuffer_init E) (W.queue.take n) ++
        [.glfwWindowShouldClose true, .sdk .flush], .ok .EXIT_SUCCESS) := by
  have hl := display_loop_take E W dev hE W.queue n fuel (frontbuffer_init E) hn
    (fun i hi => ⟨hrun i hi, hW.iteration i⟩) hclose hfuel (init_length E) hv
  unfold main_body
  simp only [bind_def, sdk_ok _ _ _ (hW _), bind_ok, hdev, emit_bind, hl, pure_def]
  simp [setup_events, hdev]

theorem iterations_events_append (E : StreamEnum) (W : World) (dev : Nat)
    (fs gs : List Frame) : ∀ (k : Nat) (tbl : Table),
      iterations_events E W dev k tbl (fs ++ gs) =
        iterations_events E W dev k tbl fs ++
          iterations_events E W dev (k + fs.length) (install tbl fs) gs := by
  induction fs with
  | nil => intro k tbl; simp [iterations_events, install]
  | cons f fs ih =>
    intro k tbl
    have h := ih (k + 1) (tbl.set f.stream_type (some f))
    rw [show k + 1 + fs.length = k + (fs.length + 1) by omega] at h
    simp only [List.cons_append, iterations_events, install_cons, List.length_cons,
      List.append_assoc]
    exact congrArg _ h

theorem take_succ_getElem (q : List Frame) (j : Nat) (hj : j < q.length) :
    q.take (j + 1) = q.take j ++ [q[j]] := by
  rw [List.take_succ, List.getElem?_eq_getElem hj]
  rfl

theorem populated_false_of_empty (tbl : Table) (s : Nat) (h : tbl[s]? = some none) :
    populated tbl s = false := by
  simp [populated, h]

theorem sample_iteration_ok (k : Nat) : IterationOk sample_world k :=
  ⟨rfl, rfl, rfl, fun _ => rfl⟩

theorem sample_open (i : Nat) (h : i < 3) : sample_world.shouldClose i = false := by
  simp [sample_world]; omega

/-! ## Properties of the program -/

/-- C1: the frontbuffer table holds, per stream, the last frame dequeued for it.  The loop
starts on an all-empty table and a queue that delivers the frames `fs` (then `rest`); the
window stays open for `fs.length` iterations, none of whose SDK calls throws, and is then
closed.  If every frame of `fs` has a stream type below `RS_STREAM_COUNT`, the loop returns
(given fuel for `fs.length + 1` tests of its condition) having consumed exactly `fs`, and for
every stream identity `s` slot `s` of the final table holds the last frame of `fs` whose
stream type is `s`, and the empty frame if `fs` has no such frame. -/
theorem frontbuffer_holds_last_frame_of_each_stream (E : StreamEnum) (W : World) (dev fuel : Nat)
    (fs rest : List Frame) (s : Nat) (hE : E.WF)
    (hrun : ∀ i, i < fs.length → W.shouldClose i = false ∧ IterationOk W i)
    (hclose : W.shouldClose fs.length = true) (hfuel : fs.length < fuel)
    (hvalid : ∀ f ∈ fs, f.stream_type < E.RS_STREAM_COUNT) (hs : s < E.RS_STREAM_COUNT) :
    ∃ tr tbl, display_loop E W dev fuel 0 (fs ++ rest, frontbuffer_init E) = (tr, .ok (rest, tbl)) ∧
      tbl[s]? = some (fs.filter (fun f => f.stream_type = s)).getLast? := by
  refine ⟨_, _, display_loop_ok E W dev hE rest fs fuel 0 (frontbuffer_init E)
    (fun i hi => by simpa using hrun i hi) (by simpa using hclose) hfuel (init_length E) hvalid,
    install_init_slot E fs s hs⟩

/-- The run of `sample_world`: after depth, colour, depth the depth slot holds the second
depth frame. -/
theorem frontbuffer_holds_last_frame_of_each_stream_witness :
    ∃ tr tbl, display_loop sample_enum sample_world 7 10 0
        ([depth_a, color_a, depth_b] ++ [], frontbuffer_init sample_enum) = (tr, .ok ([], tbl)) ∧
      tbl[0]? = some (some depth_b) :=
  frontbuffer_holds_last_frame_of_each_stream sample_enum sample_world 7 10
    [depth_a, color_a, depth_b] [] 0 (by decide)
    (fun i hi => ⟨sample_open i hi, sample_iteration_ok i⟩) (by decide) (by decide)
    (by decide) (by decide)

/-- C2: one iteration that dequeues `f`, whose stream type is below `RS_STREAM_COUNT`, from
any table of `RS_STREAM_COUNT` slots completes, leaves slot `f.stream_type` holding exactly
`f` and leaves every other slot as it was; and after any further iterations whose
dequeued frames `gs` all have other (valid) stream types, that slot still holds `f`. -/
theorem iteration_sets_one_slot (E : StreamEnum) (W : World) (dev k : Nat) (f : Frame)
    (q : List Frame) (tbl : Table) (hE : E.WF) (hW : IterationOk W k)
    (hlen : tbl.length = E.RS_STREAM_COUNT) (hf : f.stream_type < E.RS_STREAM_COUNT) :
    ∃ tr tbl1, loop_body E W dev k (f :: q, tbl) = (tr, .ok (q, tbl1)) ∧
      tbl1[f.stream_type]? = some (some f) ∧
      (∀ t, t ≠ f.stream_type → tbl1[t]? = tbl[t]?) ∧
      ∀ (gs rest : List Frame), q = gs ++ rest →
        (∀ i, i < gs.length → IterationOk W (k + 1 + i)) →
        (∀ g ∈ gs, g.stream_type < E.RS_STREAM_COUNT ∧ g.stream_type ≠ f.stream_type) →
        ∃ tr2 tbl2, iterations E W dev gs.length (k + 1) (q, tbl1) = (tr2, .ok (rest, tbl2)) ∧
          tbl2[f.stream_type]? = some (some f) := by
  have hlen1 : (tbl.set f.stream_type (some f)).length = E.RS_STREAM_COUNT := by
    simpa using hlen
  have hslot : (tbl.set f.stream_type (some f))[f.stream_type]? = some (some f) :=
    List.getElem?_set_self (by omega)
  refine ⟨_, _, loop_body_ok E W dev k f q tbl hE hW hlen hf, hslot,
    fun t ht => List.getElem?_set_ne (Ne.symm ht), ?_⟩
  intro gs rest hq hWs hgs
  subst hq
  refine ⟨_, _, iterations_run E W dev hE rest gs (k + 1) _ hWs hlen1
    (fun g hg => (hgs g hg).1), ?_⟩
  rw [install_slot gs _ f.stream_type (by omega)]
  have hnil : gs.filter (fun g => decide (g.stream_type = f.stream_type)) = [] := by
    rw [List.filter_eq_nil_iff]
    intro g hg
    simpa using (hgs g hg).2
  rw [hnil]
  exact hslot

/-- The first iteration of `sample_world` puts the first depth frame in the depth slot. -/
theorem iteration_sets_one_slot_witness :
    ∃ tr tbl1, loop_body sample_enum sample_world 7 0
        (depth_a :: [color_a, depth_b], frontbuffer_init sample_enum) =
        (tr, .ok ([color_a, depth_b], tbl1)) ∧ tbl1[0]? = some (some depth_a) := by
  obtain ⟨tr, tbl1, h1, h2, -⟩ := iteration_sets_one_slot sample_enum sample_world 7 0 depth_a
    [color_a, depth_b] (frontbuffer_init sample_enum) (by decide) (sample_iteration_ok 0)
    (by decide) (by decide)
  exact ⟨tr, tbl1, h1, h2⟩

/-- C4: when the context is created and the device query returns the empty list, `main`
returns `EXIT_FAILURE` and its whole trace is the context creation, the query and the
`printf` of the device count: no stream is opened, no frame queue created, no stream
started, no window created and no frame dequeued. -/
theorem no_device_returns_failure (E : StreamEnum) (W : World) (fuel : Nat)
    (hctx : W.fault .create_context = none) (hquery : W.fault .query_devices = none)
    (hnone : W.connected_devices = []) :
    main E W fuel =
      ([.sdk .create_context, .sdk .query_devices, .printf_connected 0],
       .exit .EXIT_FAILURE) := by
  have hb : main_body E W fuel =
      ([.sdk .create_context, .sdk .query_devices, .printf_connected 0],
       .ok .EXIT_FAILURE) := by
    unfold main_body
    simp only [bind_def, sdk_ok _ _ _ hctx, sdk_ok _ _ _ hquery, bind_ok, hnone]
    rfl
  unfold main
  rw [hb]

/-- The run of `empty_world` returns `EXIT_FAILURE` after the device query. -/
theorem no_device_returns_failure_witness :
    main sample_enum empty_world 10 =
      ([.sdk .create_context, .sdk .query_devices, .printf_connected 0],
       .exit .EXIT_FAILURE) :=
  no_device_returns_failure sample_enum empty_world 10 rfl rfl rfl

/-- C5: if any SDK call `c` the program makes throws `e`, then `main` returns
`EXIT_FAILURE`, the last two things it prints are the report of `e` (its failed function
and arguments, then its message), and the result is not `EXIT_SUCCESS`; so `main` returns
`EXIT_SUCCESS` only if no SDK call it made threw. -/
theorem sdk_failure_is_reported (E : StreamEnum) (W : World) (fuel : Nat) (c : SdkCall)
    (e : rs_error) (hcall : Event.sdk c ∈ (main E W fuel).1) (hfail : W.fault c = some e) :
    (main E W fuel).2 = .exit .EXIT_FAILURE ∧
      (main E W fuel).1 = (main_body E W fuel).1 ++
        [.printf_error_call e.failed_function e.failed_args, .printf_error_what e.what] ∧
      (main E W fuel).2 ≠ .exit .EXIT_SUCCESS := by
  have h := Sound_main_body E W fuel c e (main_trace_sdk E W fuel c hcall) hfail
  unfold main
  rw [h]
  simp

/-- The run of `faulty_world` ends with the report of the thrown error and `EXIT_FAILURE`. -/
theorem sdk_failure_is_reported_witness :
    (main sample_enum faulty_world 10).2 = .exit .EXIT_FAILURE ∧
      (main sample_enum faulty_world 10).1 = (main_body sample_enum faulty_world 10).1 ++
        [.printf_error_call "rs_get_frame_data" "frame:0x2", .printf_error_what "gone"] ∧
      (main sample_enum faulty_world 10).2 ≠ .exit .EXIT_SUCCESS :=
  sdk_failure_is_reported sample_enum faulty_world 10 (.get_data 1 1)
    ⟨"rs_get_frame_data", "frame:0x2", "gone"⟩ (by decide) (by decide)

/-- C6: in a run with a device and no SDK error, where the window-close check is false `n`
times and then true (the first `n` delivered frames having valid stream types), `main`
returns `EXIT_SUCCESS`; its trace ends with the check that returned true followed by
`flush` and nothing else; before that there is no check that returned true and no `flush`,
and exactly `n` calls of `wait_for_frame`; `flush` occurs exactly once.  A loop whose check
returns true does nothing but return its state, and the state the loop returns here is the
one reached by installing the first `n` frames. -/
theorem close_request_stops_loop_then_flushes (E : StreamEnum) (W : World)
    (fuel dev : Nat) (others : List Nat) (n : Nat) (hE : E.WF) (hW : NoFault W)
    (hdev : W.connected_devices = dev :: others) (hn : n ≤ W.queue.length)
    (hv : ∀ f ∈ W.queue.take n, f.stream_type < E.RS_STREAM_COUNT)
    (hrun : ∀ i, i < n → W.shouldClose i = false) (hclose : W.shouldClose n = true)
    (hfuel : n < fuel) :
    (main E W fuel).2 = .exit .EXIT_SUCCESS ∧
    (∃ pre, (main E W fuel).1 = pre ++ [.glfwWindowShouldClose true, .sdk .flush] ∧
      Event.glfwWindowShouldClose true ∉ pre ∧ Event.sdk .flush ∉ pre ∧
      pre.countP is_wait = n) ∧
    (main E W fuel).1.count (.sdk .flush) = 1 ∧
    (∀ (m k : Nat) (st : List Frame × Table), W.shouldClose k = true →
      display_loop E W dev (m + 1) k st = ([.glfwWindowShouldClose true], .ok st)) ∧
    display_loop E W dev fuel 0 (W.queue, frontbuffer_init E) =
      (loop_events E W dev 0 (frontbuffer_init E) (W.queue.take n) ++
        [.glfwWindowShouldClose true],
       .ok (W.queue.drop n, install (frontbuffer_init E) (W.queue.take n))) := by
  have hb := main_body_ok E W fuel dev others n hE hW hdev hn hv hrun hclose hfuel
  have hm : main E W fuel =
      (setup_events E W dev ++ loop_events E W dev 0 (frontbuffer_init E) (W.queue.take n) ++
        [.glfwWindowShouldClose true, .sdk .flush], .exit .EXIT_SUCCESS) := by
    unfold main
    rw [hb]
  have hk := loop_events_kind E W dev (W.queue.take n) 0 (frontbuffer_init E)
  have hc : Event.glfwWindowShouldClose true ∉
      setup_events E W dev ++ loop_events E W dev 0 (frontbuffer_init E) (W.queue.take n) := by
    intro h
    rcases List.mem_append.1 h with h | h
    · simp [setup_events] at h
    · have := hk _ h
      simp [loop_kind, render_kind] at this
  have hf : Event.sdk .flush ∉
      setup_events E W dev ++ loop_events E W dev 0 (frontbuffer_init E) (W.queue.take n) := by
    intro h
    rcases List.mem_append.1 h with h | h
    · simp [setup_events] at h
    · have := hk _ h
      simp [loop_kind, render_kind] at this
  refine ⟨by rw [hm], ⟨_, by rw [hm], hc, hf, ?_⟩, ?_, ?_, ?_⟩
  · rw [List.countP_append, loop_events_waits]
    simp [setup_events, is_wait, hn]
  · rw [hm]
    simp only [List.count_append, List.count_eq_zero_of_not_mem hf]
    simp
  · intro m k st hk
    simp [display_loop, hk, bind_def, emit_bind, pure_def]
  · exact display_loop_take E W dev hE W.queue n fuel (frontbuffer_init E) hn
      (fun i hi => ⟨hrun i hi, hW.iteration i⟩) hclose hfuel (init_length E) hv

/-- The run of `sample_world` returns `EXIT_SUCCESS` and calls `flush` once. -/
theorem close_request_stops_loop_then_flushes_witness :
    (main sample_enum sample_world 10).2 = .exit .EXIT_SUCCESS ∧
      (main sample_enum sample_world 10).1.count (.sdk .flush) = 1 := by
  obtain ⟨h1, -, h3, -⟩ := close_request_stops_loop_then_flushes sample_enum sample_world 10 7
    [] 3 (by decide) (fun _ => rfl) rfl (by decide) (by decide) sample_open rfl (by decide)
  exact ⟨h1, h3⟩

/-- C7: when none of the first `n` delivered frames is an infrared frame (and none of the SDK
calls of those iterations throws), the infrared slot is empty at the start and after
every one of the `n` iterations; each iteration `j` completes without error, draws no
infrared image, draws exactly the populated slots among depth and colour, in that order,
and ends by swapping the buffers. -/
theorem infrared_never_delivered_is_skipped (E : StreamEnum) (W : World) (dev : Nat)
    (q : List Frame) (n : Nat) (hE : E.WF) (hn : n ≤ q.length)
    (hW : ∀ i, i < n → IterationOk W i)
    (hv : ∀ f ∈ q.take n,
      f.stream_type < E.RS_STREAM_COUNT ∧ f.stream_type ≠ E.RS_STREAM_INFRARED) :
    (frontbuffer_init E)[E.RS_STREAM_INFRARED]? = some none ∧
    ∀ j, j < n → ∃ trj tblj tr tbl1,
      iterations E W dev j 0 (q, frontbuffer_init E) = (trj, .ok (q.drop j, tblj)) ∧
      loop_body E W dev j (q.drop j, tblj) = (tr, .ok (q.drop (j + 1), tbl1)) ∧
      iterations E W dev (j + 1) 0 (q, frontbuffer_init E) =
        (trj ++ tr, .ok (q.drop (j + 1), tbl1)) ∧
      tbl1[E.RS_STREAM_INFRARED]? = some none ∧
      (∀ ev ∈ tr, stream_drawn E ev ≠ some E.RS_STREAM_INFRARED) ∧
      tr.filterMap (stream_drawn E) =
        [E.RS_STREAM_DEPTH, E.RS_STREAM_COLOR].filter (populated tbl1) ∧
      tr.getLast? = some .glfwSwapBuffers := by
  have hIR : E.RS_STREAM_INFRARED < E.RS_STREAM_COUNT := hE.2.2.2.2.1
  refine ⟨init_slot E _ hIR, ?_⟩
  intro j hj
  have hjq : j < q.length := by omega
  have hsub : ∀ m, m ≤ n → ∀ f ∈ q.take m, f.stream_type < E.RS_STREAM_COUNT :=
    fun m hm f hf => (hv f (List.take_subset_take_left q hm hf)).1
  have hfj : q[j] ∈ q.take n := by
    rw [List.mem_take_iff_getElem]
    exact ⟨j, by simp; omega, rfl⟩
  have hlenj : (install (frontbuffer_init E) (q.take j)).length = E.RS_STREAM_COUNT := by
    rw [install_length, init_length]
  have htake := take_succ_getElem q j hjq
  have htbl : install (frontbuffer_init E) (q.take (j + 1)) =
      (install (frontbuffer_init E) (q.take j)).set q[j].stream_type (some q[j]) := by
    rw [htake, install_append]
    rfl
  have hbody := loop_body_ok E W dev j q[j] (q.drop (j + 1))
    (install (frontbuffer_init E) (q.take j)) hE (hW j hj) hlenj (hv _ hfj).1
  rw [← List.drop_eq_getElem_cons hjq, ← htbl] at hbody
  have hslot : (install (frontbuffer_init E) (q.take (j + 1)))[E.RS_STREAM_INFRARED]? =
      some none := by
    rw [install_init_slot E _ _ hIR]
    have hnil : (q.take (j + 1)).filter
        (fun f => decide (f.stream_type = E.RS_STREAM_INFRARED)) = [] := by
      rw [List.filter_eq_nil_iff]
      intro f hf
      simpa using (hv f (List.take_subset_take_left q (by omega) hf)).2
    rw [hnil]
    rfl
  have hdrawn := iteration_events_drawn E W dev j
    (install (frontbuffer_init E) (q.take (j + 1))) hE
  have hpop : populated_streams E (install (frontbuffer_init E) (q.take (j + 1))) =
      [E.RS_STREAM_DEPTH, E.RS_STREAM_COLOR].filter
        (populated (install (frontbuffer_init E) (q.take (j + 1)))) := by
    simp [populated_streams, supported_streams, List.filter_cons,
      populated_false_of_empty _ _ hslot]
  refine ⟨_, _, _, _,
    iterations_take E W dev hE q j (frontbuffer_init E) (by omega)
      (fun i hi => hW i (by omega)) (init_length E) (hsub j (by omega)),
    hbody, ?_, hslot, ?_, by rw [hdrawn, hpop], ?_⟩
  · rw [iterations_take E W dev hE q (j + 1) (frontbuffer_init E) (by omega)
      (fun i hi => hW i (by omega)) (init_length E) (hsub (j + 1) (by omega))]
    have hl : (q.take j).length = j := by simp; omega
    rw [htake, iterations_events_append, hl, ← htake]
    simp [iterations_events, htbl]
  · intro ev hev hd
    have hmem : E.RS_STREAM_INFRARED ∈
        (iteration_events E W dev j
          (install (frontbuffer_init E) (q.take (j + 1)))).filterMap (stream_drawn E) :=
      List.mem_filterMap.2 ⟨ev, hev, hd⟩
    rw [hdrawn, hpop] at hmem
    have := (List.mem_filter.1 hmem).1
    obtain ⟨h1, -, h3, -⟩ := hE
    simp [Ne.symm h1, h3] at this
  · unfold iteration_events
    rw [List.getLast?_concat]

/-- The third iteration of `sample_world`, which never receives an infrared frame. -/
theorem infrared_never_delivered_is_skipped_witness :
    (frontbuffer_init sample_enum)[sample_enum.RS_STREAM_INFRARED]? = some none ∧
      ∃ tblj tr tbl1, loop_body sample_enum sample_world 7 2
          ([depth_a, color_a, depth_b].drop 2, tblj) =
          (tr, .ok ([depth_a, color_a, depth_b].drop (2 + 1), tbl1)) ∧
        tbl1[sample_enum.RS_STREAM_INFRARED]? = some none ∧
        tr.filterMap (stream_drawn sample_enum) =
          [sample_enum.RS_STREAM_DEPTH, sample_enum.RS_STREAM_COLOR].filter (populated tbl1) ∧
        tr.getLast? = some .glfwSwapBuffers := by
  obtain ⟨h0, h⟩ := infrared_never_delivered_is_skipped sample_enum sample_world 7
    [depth_a, color_a, depth_b] 3 (by decide) (by decide) (fun i _ => sample_iteration_ok i)
    (by decide)
  obtain ⟨_, tblj, tr, tbl1, -, h2, -, h4, -, h6, h7⟩ := h 2 (by decide)
  exact ⟨h0, tblj, tr, tbl1, h2, h4, h6, h7⟩

/-- C8: with the queue a FIFO list `q`, the first `n` iterations (none of whose SDK calls
throws, the frames having valid stream types) call `wait_for_frame` exactly `n` times,
leave the queue as `q.drop n`, and leave the table as the result of installing the frames
`q.take n` one by one in list order.  The `while` loop that finds the window closed at its
`n`-th check returns exactly this state. -/
theorem iterations_consume_queue_in_order (E : StreamEnum) (W : World) (dev : Nat)
    (q : List Frame) (n : Nat) (hE : E.WF) (hn : n ≤ q.length)
    (hW : ∀ i, i < n → IterationOk W i)
    (hv : ∀ f ∈ q.take n, f.stream_type < E.RS_STREAM_COUNT) :
    (∃ tr, iterations E W dev n 0 (q, frontbuffer_init E) =
        (tr, .ok (q.drop n, install (frontbuffer_init E) (q.take n))) ∧
      tr.countP is_wait = n) ∧
    (∀ fuel, (∀ i, i < n → W.shouldClose i = false) → W.shouldClose n = true → n < fuel →
      (display_loop E W dev fuel 0 (q, frontbuffer_init E)).2 =
        .ok (q.drop n, install (frontbuffer_init E) (q.take n))) := by
  refine ⟨⟨_, iterations_take E W dev hE q n (frontbuffer_init E) hn hW (init_length E) hv,
    ?_⟩, ?_⟩
  · rw [iterations_events_waits]
    simp [hn]
  · intro fuel hrun hclose hfuel
    rw [display_loop_take E W dev hE q n fuel (frontbuffer_init E) hn
      (fun i hi => ⟨hrun i hi, hW i hi⟩) hclose hfuel (init_length E) hv]

/-- Two iterations of `sample_world` install the depth and the colour frame and leave the
third frame in the queue. -/
theorem iterations_consume_queue_in_order_witness :
    ∃ tr, iterations sample_enum sample_world 7 2 0
        ([depth_a, color_a, depth_b], frontbuffer_init sample_enum) =
        (tr, .ok ([depth_b], [some depth_a, some color_a, none, none, none])) ∧
      tr.countP is_wait = 2 :=
  (iterations_consume_queue_in_order sample_enum sample_world 7 [depth_a, color_a, depth_b] 2
    (by decide) (by decide) (fun i _ => sample_iteration_ok i) (by decide)).1

/-- C9: for an enumeration that declares depth, infrared and colour, the three entries of
`supported_streams` are pairwise distinct and below `RS_STREAM_COUNT`; on the
`frontbuffer` array the write at a stream type below `RS_STREAM_COUNT` succeeds and the
reads at the entries of `supported_streams` are in range; hence, if every delivered frame
has a stream type below `RS_STREAM_COUNT`, no run of `main` indexes the array out of range,
whatever the SDK does.  The code itself does not check: an iteration that dequeues a frame
whose stream type is `RS_STREAM_COUNT` or more indexes out of range. -/
theorem frontbuffer_accesses_in_bounds (decl : List rs_stream_name)
    (hd : rs_stream_name.RS_STREAM_DEPTH ∈ decl)
    (hi : rs_stream_name.RS_STREAM_INFRARED ∈ decl)
    (hc : rs_stream_name.RS_STREAM_COLOR ∈ decl) :
    (supported_streams (StreamEnum.of_decl decl)).Nodup ∧
    (∀ s ∈ supported_streams (StreamEnum.of_decl decl),
      s < (StreamEnum.of_decl decl).RS_STREAM_COUNT) ∧
    (∀ (tbl : Table) (f : Frame), tbl.length = (StreamEnum.of_decl decl).RS_STREAM_COUNT →
      f.stream_type < (StreamEnum.of_decl decl).RS_STREAM_COUNT →
      (store tbl f.stream_type f).isSome = true) ∧
    (∀ (tbl : Table), tbl.length = (StreamEnum.of_decl decl).RS_STREAM_COUNT →
      ∀ s ∈ supported_streams (StreamEnum.of_decl decl), tbl[s]? ≠ none) ∧
    (∀ (W : World) (fuel : Nat),
      (∀ f ∈ W.queue, f.stream_type < (StreamEnum.of_decl decl).RS_STREAM_COUNT) →
      (main (StreamEnum.of_decl decl) W fuel).2 ≠ .stuck .out_of_range) ∧
    (∀ (W : World) (dev k : Nat) (f : Frame) (q : List Frame) (tbl : Table),
      tbl.length = (StreamEnum.of_decl decl).RS_STREAM_COUNT →
      W.fault (.wait_for_frame k) = none → W.fault (.get_stream_type k) = none →
      (StreamEnum.of_decl decl).RS_STREAM_COUNT ≤ f.stream_type →
      (loop_body (StreamEnum.of_decl decl) W dev k (f :: q, tbl)).2 = .error .out_of_range) := by
  have hE := of_decl_WF decl hd hi hc
  refine ⟨?_, ?_, ?_, ?_, ?_, ?_⟩
  · obtain ⟨h1, h2, h3, -⟩ := hE
    simp [supported_streams, h1, h2, h3]
  · intro s hs
    have := supported_lt _ hE (frontbuffer_init _) (init_length _) s hs
    rwa [init_length] at this
  · intro tbl f hlen hf
    rw [store_ok tbl f.stream_type f (by omega)]
    rfl
  · intro tbl hlen s hs
    have := supported_lt _ hE tbl hlen s hs
    rw [List.getElem?_eq_getElem this]
    simp
  · intro W fuel hv
    have := main_body_in_bounds _ W fuel hE hv
    unfold main
    split
    · simp
    · simp
    · rename_i a hne heq
      rw [heq] at this
      intro h
      simp only [Outcome.stuck.injEq] at h
      subst h
      exact this rfl
  · intro W dev k f q tbl hlen h1 h2 hf
    exact loop_body_out_of_range _ W dev k f q tbl hlen h1 h2 hf

/-- The run of `sample_world` under the enumeration `sample_decl` stays within the array. -/
theorem frontbuffer_accesses_in_bounds_witness :
    (supported_streams sample_enum).Nodup ∧
      (main sample_enum sample_world 10).2 ≠ .stuck .out_of_range := by
  have h := frontbuffer_accesses_in_bounds sample_decl (by decide) (by decide) (by decide)
  exact ⟨h.1, h.2.2.2.2.1 sample_world 10 (by decide)⟩

/-- C10: for each configuration `c` the program opens (the three streams of
`supported_streams`), every `glDrawPixels` call made when rendering stream `c.stream` has
the configured width and height, 640 by 480, a pixel layout of as many bits as the opened
format, and reads exactly as many bytes as one frame of that format holds (also counting
OpenGL row alignment), from the frame in the slot; when nothing throws there is exactly one
such call. -/
theorem draw_matches_opened_config (E : StreamEnum) (hE : E.WF) (c : StreamConfig)
    (hc : c ∈ depth_configs E ++ color_configs E) (W : World) (dev k : Nat) (tbl : Table)
    (fr : Frame) (hslot : tbl[c.stream]? = some (some fr)) :
    (∀ w h fmt ty p,
      Event.glDrawPixels w h fmt ty p ∈ (render_stream E W dev k tbl c.stream).1 →
        w = c.width ∧ h = c.height ∧ w = 640 ∧ h = 480 ∧
        gl_pixel_bytes fmt ty * 8 = rs_format_bits c.format ∧
        gl_draw_bytes w h fmt ty = frame_bytes c ∧
        gl_draw_extent w h fmt ty = frame_bytes c ∧ p = fr.data) ∧
    (RenderOk W k → (render_stream E W dev k tbl c.stream).1.countP is_draw = 1) ∧
    (depth_configs E ++ color_configs E).map (fun c => c.stream) = supported_streams E := by
  obtain ⟨h1, h2, h3, -⟩ := hE
  simp only [depth_configs, color_configs, List.cons_append, List.nil_append, List.mem_cons,
    List.mem_singleton, List.not_mem_nil, or_false] at hc
  refine ⟨?_, ?_, rfl⟩
  · intro w h fmt ty p hmem
    unfold render_stream at hmem
    rw [hslot] at hmem
    rcases hc with rfl | rfl | rfl
    · simp only [if_true, bind_def, emit_bind] at hmem
      have hmem1 : w = 640 ∧ h = 480 ∧ fmt = .GL_RED ∧ ty = .GL_UNSIGNED_SHORT ∧ p = fr.data := by
        rcases sdk_cases W (.get_depth_scale k) (W.depth_scale dev) with e1 | ⟨e1, e1h⟩ <;>
        rcases sdk_cases W (.get_data k E.RS_STREAM_DEPTH) fr.data with e2 | ⟨e2, e2h⟩ <;>
        simp [*, bind_ok, bind_error, emit_bind, emit] at hmem
        exact hmem
      obtain ⟨rfl, rfl, rfl, rfl, rfl⟩ := hmem1
      exact ⟨rfl, rfl, rfl, rfl, by rfl,
        by norm_num [gl_draw_bytes, gl_pixel_bytes, gl_components, gl_type_bytes, frame_bytes,
          rs_format_bits],
        by norm_num [gl_draw_extent, gl_row_stride, gl_pixel_bytes, gl_components,
          gl_type_bytes, frame_bytes, rs_format_bits], rfl⟩
    · simp only [Ne.symm h1, h3, if_true, if_false, bind_def, emit_bind] at hmem
      have hmem1 : w = 640 ∧ h = 480 ∧ fmt = .GL_LUMINANCE ∧ ty = .GL_UNSIGNED_BYTE ∧
          p = fr.data := by
        rcases sdk_cases W (.get_data k E.RS_STREAM_INFRARED) fr.data with e2 | ⟨e2, e2h⟩ <;>
        simp [*, bind_ok, bind_error, emit_bind, emit] at hmem
        exact hmem
      obtain ⟨rfl, rfl, rfl, rfl, rfl⟩ := hmem1
      exact ⟨rfl, rfl, rfl, rfl, by rfl,
        by norm_num [gl_draw_bytes, gl_pixel_bytes, gl_components, gl_type_bytes, frame_bytes,
          rs_format_bits],
        by norm_num [gl_draw_extent, gl_row_stride, gl_pixel_bytes, gl_components,
          gl_type_bytes, frame_bytes, rs_format_bits], rfl⟩
    · simp only [Ne.symm h2, if_true, if_false, bind_def, emit_bind] at hmem
      have hmem1 : w = 640 ∧ h = 480 ∧ fmt = .GL_RGB ∧ ty = .GL_UNSIGNED_BYTE ∧ p = fr.data := by
        rcases sdk_cases W (.get_data k E.RS_STREAM_COLOR) fr.data with e2 | ⟨e2, e2h⟩ <;>
        simp [*, bind_ok, bind_error, emit_bind, emit] at hmem
        exact hmem
      obtain ⟨rfl, rfl, rfl, rfl, rfl⟩ := hmem1
      exact ⟨rfl, rfl, rfl, rfl, by rfl,
        by norm_num [gl_draw_bytes, gl_pixel_bytes, gl_components, gl_type_bytes, frame_bytes,
          rs_format_bits],
        by norm_num [gl_draw_extent, gl_row_stride, gl_pixel_bytes, gl_components,
          gl_type_bytes, frame_bytes, rs_format_bits], rfl⟩
  · intro hW
    rw [render_stream_populated E W dev k tbl c.stream fr hW hslot]
    rcases hc with rfl | rfl | rfl
    · simp [draw_events, is_draw]
    · simp [draw_events, is_draw, Ne.symm h1, h3]
    · simp [draw_events, is_draw, Ne.symm h2]

/-- The depth draw of `sample_world`: one `glDrawPixels` call, reading 614400 bytes. -/
theorem draw_matches_opened_config_witness :
    (render_stream sample_enum sample_world 7 0 [some depth_a, some color_a, none, none, none]
        0).1.countP is_draw = 1 ∧
      gl_draw_bytes 640 480 .GL_RED .GL_UNSIGNED_SHORT = 614400 := by
  have h := draw_matches_opened_config sample_enum (by decide)
    ⟨0, 640, 480, 30, .RS_FORMAT_Z16⟩ (by decide) sample_world 7 0
    [some depth_a, some color_a, none, none, none] depth_a rfl
  exact ⟨h.2.1 ⟨rfl, fun _ => rfl⟩, by decide⟩

end Tutorial2
